import Mathlib

/-!
Verification of the label-extraction and configuration-synthesis engine of a
Traefik dynamic-configuration HTTP provider for Docker.

The development shallowly embeds the Rust sources:
  * src/lib.rs                   — label regexes, TraefikedContainer model,
                                   extract_traefik_config, TryFrom<ContainerSummary>
  * src/dynamic_configuration.rs — DynamicConfigurationBuilder, add_container, build,
                                   YAML rendering of the document
  * src/docker.rs                — get_traefik_labeled_containers (pure part)
  * src/main.rs                  — the /dynamic_configuration handler (pure part)

Label maps (Rust HashMap<String, String>) are embedded as association lists in
some iteration order; Rust Strings are Lean Strings (byte-lexicographic order on
UTF-8 coincides with code-point lexicographic order, which is what we define).
-/

/-! ### Byte-lexicographic string order (Rust Ord for String, BTreeMap key order) -/

/-- Strict lexicographic order on char lists by code point.  Models Rust
Ord::cmp for str/String: Rust compares UTF-8 bytes, and byte-lexicographic
order on UTF-8 encodings coincides with code-point lexicographic order. -/
def ltChars : List Char → List Char → Bool
  | [], [] => false
  | [], _ :: _ => true
  | _ :: _, [] => false
  | a :: as, b :: bs =>
    if a < b then true
    else if b < a then false
    else ltChars as bs

/-- Strict order on strings, as Rust Ord::cmp returning Less. -/
def strLt (a b : String) : Bool := ltChars a.toList b.toList

/-- Non-strict order on strings, as Rust Ord::cmp returning Less or Equal. -/
def strLe (a b : String) : Bool := !(strLt b a)

theorem ltChars_irrefl (a : List Char) : ltChars a a = false := by
  induction a with
  | nil => rfl
  | cons c cs ih => simp [ltChars, ih]

theorem ltChars_trans {a b c : List Char} (h1 : ltChars a b = true)
    (h2 : ltChars b c = true) : ltChars a c = true := by
  induction a generalizing b c with
  | nil =>
    cases b with
    | nil => simp [ltChars] at h1
    | cons y ys =>
      cases c with
      | nil => simp [ltChars] at h2
      | cons z zs => rfl
  | cons x xs ih =>
    cases b with
    | nil => simp [ltChars] at h1
    | cons y ys =>
      cases c with
      | nil => simp [ltChars] at h2
      | cons z zs =>
        rcases lt_trichotomy x y with hxy | hxy | hxy
        · rcases lt_trichotomy y z with hyz | hyz | hyz
          · simp [ltChars, lt_trans hxy hyz]
          · subst hyz
            simp [ltChars, hxy]
          · simp [ltChars, hyz, lt_asymm hyz] at h2
        · subst hxy
          rcases lt_trichotomy x z with hxz | hxz | hxz
          · simp [ltChars, hxz]
          · subst hxz
            simp only [ltChars, if_neg (lt_irrefl x)] at h1 h2 ⊢
            exact ih h1 h2
          · simp [ltChars, hxz, lt_asymm hxz] at h2
        · simp [ltChars, hxy, lt_asymm hxy] at h1

theorem ltChars_eq_of_not_lt {a b : List Char} (h1 : ltChars a b = false)
    (h2 : ltChars b a = false) : a = b := by
  induction a generalizing b with
  | nil =>
    cases b with
    | nil => rfl
    | cons y ys => simp [ltChars] at h1
  | cons x xs ih =>
    cases b with
    | nil => simp [ltChars] at h2
    | cons y ys =>
      rcases lt_trichotomy x y with hxy | hxy | hxy
      · simp [ltChars, hxy] at h1
      · subst hxy
        simp only [ltChars, if_neg (lt_irrefl x)] at h1 h2
        exact congrArg (x :: ·) (ih h1 h2)
      · simp [ltChars, hxy] at h2

theorem ltChars_asymm {a b : List Char} (h : ltChars a b = true) :
    ltChars b a = false := by
  cases h2 : ltChars b a with
  | false => rfl
  | true =>
    have h3 := ltChars_trans h h2
    rw [ltChars_irrefl] at h3
    exact Bool.noConfusion h3

theorem strLt_irrefl (a : String) : strLt a a = false := ltChars_irrefl _

theorem strLt_asymm {a b : String} (h : strLt a b = true) : strLt b a = false :=
  ltChars_asymm h

theorem strLt_trans {a b c : String} (h1 : strLt a b = true)
    (h2 : strLt b c = true) : strLt a c = true := ltChars_trans h1 h2

theorem strEq_of_not_lt {a b : String} (h1 : strLt a b = false)
    (h2 : strLt b a = false) : a = b :=
  String.ext (ltChars_eq_of_not_lt h1 h2)

theorem strLt_trichotomy (a b : String) :
    strLt a b = true ∨ a = b ∨ strLt b a = true := by
  cases h1 : strLt a b with
  | true => exact Or.inl rfl
  | false =>
    cases h2 : strLt b a with
    | true => exact Or.inr (Or.inr rfl)
    | false => exact Or.inr (Or.inl (strEq_of_not_lt h1 h2))

theorem strLe_trans {a b c : String} (h1 : strLe a b = true)
    (h2 : strLe b c = true) : strLe a c = true := by
  simp only [strLe, Bool.not_eq_true'] at h1 h2 ⊢
  cases hca : strLt c a with
  | false => rfl
  | true =>
    rcases strLt_trichotomy a b with hab | hab | hab
    · have h3 := strLt_trans hca hab
      rw [h3] at h2
      exact Bool.noConfusion h2
    · subst hab
      rw [hca] at h2
      exact Bool.noConfusion h2
    · rw [hab] at h1
      exact Bool.noConfusion h1

theorem strLe_total (a b : String) : strLe a b = true ∨ strLe b a = true := by
  simp only [strLe, Bool.not_eq_true']
  cases h : strLt b a with
  | false => exact Or.inl rfl
  | true => exact Or.inr (strLt_asymm h)

/-! ### The two label-key regexes of src/lib.rs

ROUTERS_LABEL_REGEX is the Rust regex `traefik\.http\.routers\.(.+)\.rule` and
SERVICE_LABEL_REGEX is `traefik\.http\.services.(.+).loadbalancer.server.port`.
Regex::captures performs an unanchored search with leftmost-match semantics:
the overall match begins at the smallest possible start index, and within it
the greedy `(.+)` group captures as many characters as possible.  A `.`
metacharacter (the unescaped dots of SERVICE_LABEL_REGEX, and the dots inside
`(.+)`) matches any single character except a newline; the escaped `\.` dots of
ROUTERS_LABEL_REGEX and the dot written inside `services.` only where escaped
are literal.  The two functions below implement exactly these semantics for the
two concrete patterns. -/

/-- Semantics of the regex metacharacter `.`: any character except newline. -/
def dotMatches (c : Char) : Bool := c != '\n'

/-- Greedy match of the pattern tail `(.+)\.rule` of ROUTERS_LABEL_REGEX
against tail, returning the capture of group 1: the longest prefix of
newline-free characters that is followed by the literal ".rule". -/
def routerGreedyTail (tail : List Char) : Option (List Char) :=
  (List.range (tail.length + 1)).reverse.findSome? fun j =>
    if 1 ≤ j && (tail.take j).all dotMatches &&
        List.isPrefixOf ".rule".toList (tail.drop j)
    then some (tail.take j) else none

/-- Captures of ROUTERS_LABEL_REGEX (`traefik\.http\.routers\.(.+)\.rule`)
on a label key: unanchored leftmost search for the literal prefix
"traefik.http.routers." followed by a greedy capture and the literal ".rule". -/
def routerCapture (key : String) : Option String :=
  ((List.range (key.toList.length + 1)).findSome? fun i =>
    if List.isPrefixOf "traefik.http.routers.".toList (key.toList.drop i)
    then routerGreedyTail (key.toList.drop (i + 21))
    else none).map String.mk

/-- One unescaped-dot wildcard followed by a literal, as in the pattern
fragments `.loadbalancer`, `.server`, `.port` of SERVICE_LABEL_REGEX; returns
the rest of the input after the literal. -/
def wildThenLit (lit : List Char) (rest : List Char) : Option (List Char) :=
  match rest with
  | [] => none
  | c :: rs =>
    if dotMatches c && List.isPrefixOf lit rs then some (rs.drop lit.length)
    else none

/-- Match of the pattern tail `.loadbalancer.server.port` (all dots unescaped
wildcards) of SERVICE_LABEL_REGEX at the start of rest. -/
def serviceTailMatches (rest : List Char) : Bool :=
  (((wildThenLit "loadbalancer".toList rest).bind
      (wildThenLit "server".toList)).bind
      (wildThenLit "port".toList)).isSome

/-- Greedy match of `(.+).loadbalancer.server.port` against tail, returning
the capture of group 1. -/
def serviceGreedyTail (tail : List Char) : Option (List Char) :=
  (List.range (tail.length + 1)).reverse.findSome? fun j =>
    if 1 ≤ j && (tail.take j).all dotMatches && serviceTailMatches (tail.drop j)
    then some (tail.take j) else none

/-- Captures of SERVICE_LABEL_REGEX
(`traefik\.http\.services.(.+).loadbalancer.server.port`) on a label key:
unanchored leftmost search for the literal "traefik.http.services" (its dots
are escaped in the pattern), then one wildcard character (the unescaped dot
after "services"), then the greedy capture and `.loadbalancer.server.port`
with unescaped-dot wildcards. -/
def serviceCapture (key : String) : Option String :=
  ((List.range (key.toList.length + 1)).findSome? fun i =>
    if List.isPrefixOf "traefik.http.services".toList (key.toList.drop i)
    then match key.toList.drop (i + 21) with
      | [] => none
      | c :: rest => if dotMatches c then serviceGreedyTail rest else none
    else none).map String.mk

/-! ### Parsing of label values as u16 (Rust str::parse::<u16>) -/

/-- Rust str::parse::<u16>: an optional leading plus sign, then one or more
ASCII digits, value at most 65535; anything else is a parse error. -/
def parseU16 (s : String) : Option Nat :=
  let cs := match s.toList with
    | '+' :: rest => rest
    | cs => cs
  if cs ≠ [] ∧ cs.all (·.isDigit) then
    let n := cs.foldl (fun acc c => acc * 10 + (c.toNat - 48)) 0
    if n ≤ 65535 then some n else none
  else none

/-! ### Data model of src/lib.rs -/

/-- SinglePort routing configuration: struct TraefikedContainerSinglePortConfig. -/
structure TraefikedContainerSinglePortConfig where
  router_name : String
  rule : String
deriving DecidableEq

/-- One multi-port entry: struct TraefikedContainerMultiPortConfig. -/
structure TraefikedContainerMultiPortConfig where
  config : TraefikedContainerSinglePortConfig
  service_name : String
  target_port : Nat
deriving DecidableEq

/-- Routing configuration of a container: enum TraefikedContainerConfig. -/
inductive TraefikedContainerConfig where
  | SinglePort (config : TraefikedContainerSinglePortConfig)
  | MultiplePorts (configs : List TraefikedContainerMultiPortConfig)
deriving DecidableEq

/-- Normalized container: struct TraefikedContainer. -/
structure TraefikedContainer where
  name : String
  public_ports : List Nat
  config : TraefikedContainerConfig
deriving DecidableEq

/-! ### The Label Extractor: extract_traefik_config of src/lib.rs -/

/-- The (routerName, rule) pairs produced by the first filter_map of
extract_traefik_config: one pair per label entry whose key yields a
ROUTERS_LABEL_REGEX capture, carrying the capture and the label value. -/
def routerPairs (labels : List (String × String)) : List (String × String) :=
  labels.filterMap fun kv => (routerCapture kv.1).map fun n => (n, kv.2)

/-- The (serviceName, port) pairs produced by the second filter_map of
extract_traefik_config: one pair per label entry whose key yields a
SERVICE_LABEL_REGEX capture and whose value parses as a u16. -/
def servicePairs (labels : List (String × String)) : List (String × Nat) :=
  labels.filterMap fun kv =>
    (serviceCapture kv.1).bind fun n => (parseU16 kv.2).map fun p => (n, p)

/-- Stable sort by the first (name) component, modelling itertools
sorted_by(|a, b| Ord::cmp(&a.0, &b.0)): a stable sort with respect to a total
preorder is extensionally unique, so stable insertion sort computes the same
list as the stable merge sort Rust uses. -/
def sortByName {β : Type} (l : List (String × β)) : List (String × β) :=
  List.insertionSort (fun a b => strLe a.1 b.1 = true) l

/-- The entry constructor of the MultiplePorts arm of extract_traefik_config:
the i-th router (name, rule) pair is combined with the i-th service
(name, port) pair. -/
def mkMultiPortEntry (x : (String × String) × (String × Nat)) :
    TraefikedContainerMultiPortConfig :=
  ⟨⟨x.1.1, x.1.2⟩, x.2.1, x.2.2⟩

/-- The tail of extract_traefik_config reached when more than one router pair
was found: collect and sort the service pairs, require their count to equal
the router count, and zip positionally. -/
def multiPortResult (labels : List (String × String))
    (routers : List (String × String)) : Option TraefikedContainerConfig :=
  if (sortByName (servicePairs labels)).length = routers.length then
    some (.MultiplePorts
      ((routers.zip (sortByName (servicePairs labels))).map mkMultiPortEntry))
  else none

/-- The Label Extractor, extract_traefik_config: zero routers gives none, one
router gives SinglePort ignoring service labels, several routers require an
equal number of parsed service/port pairs and zip the two sorted lists
positionally. -/
def extract_traefik_config (labels : List (String × String)) :
    Option TraefikedContainerConfig :=
  match sortByName (routerPairs labels) with
  | [] => none
  | [(router_name, rule)] =>
    some (.SinglePort ⟨router_name, rule⟩)
  | r1 :: r2 :: rtl =>
    multiPortResult labels (r1 :: r2 :: rtl)

/-! ### URLs (the url crate, as used by src/dynamic_configuration.rs)

Only the parts of url::Url that the program touches are modelled: the scheme,
host, port, path and the cannot-be-a-base flag, together with Url::set_port and
the serialization used for backend URLs.  A parsed base address such as
"http://192.168.1.100" has path "/" (the url crate normalizes an empty path). -/

/-- Model of url::Url restricted to the components the program reads or
writes. -/
structure Url where
  scheme : String
  host : Option String
  port : Option Nat
  path : String
  cannot_be_a_base : Bool
deriving DecidableEq

/-- Default ports of the url crate; set_port stores None when the requested
port equals the scheme's default. -/
def defaultPort (scheme : String) : Option Nat :=
  if scheme = "http" then some 80
  else if scheme = "https" then some 443
  else if scheme = "ws" then some 80
  else if scheme = "wss" then some 443
  else if scheme = "ftp" then some 21
  else none

/-- Whether Url::set_port can succeed: it fails on cannot-be-a-base URLs, on
URLs without a host (or with an empty host), and on the file scheme; the
requested port value itself is irrelevant to success. -/
def Url.canHavePort (u : Url) : Bool :=
  !u.cannot_be_a_base &&
    (match u.host with
     | some h => h != ""
     | none => false) &&
    u.scheme != "file"

/-- The port-overwriting step of Url::set_port once it is known to succeed. -/
def overwritePort (u : Url) (p : Nat) : Url :=
  { u with port := if defaultPort u.scheme = some p then none else some p }

/-- Url::set_port(Some(p)): Err exactly when the URL cannot carry a port;
otherwise the port is overwritten (normalizing away the scheme default). -/
def setPort (u : Url) (p : Nat) : Option Url :=
  if u.canHavePort then some (overwritePort u p) else none

/-- Serialization of a (base-compatible) URL, as rendered into the document:
scheme://host[:port]path. -/
def urlToString (u : Url) : String :=
  u.scheme ++ "://" ++
    (match u.host with
     | some h => h
     | none => "") ++
    (match u.port with
     | some p => ":" ++ toString p
     | none => "") ++
    u.path

/-- The parse of the base address "http://192.168.1.100" used by the
repository's builder test. -/
def exampleBaseUrl : Url :=
  { scheme := "http", host := some "192.168.1.100", port := none,
    path := "/", cannot_be_a_base := false }

/-! ### Configuration document model (src/dynamic_configuration.rs)

BTreeMap<String, V> is embedded as an association list strictly sorted by
strLt on the keys; btreeInsert is BTreeMap::insert (replacing the value when
the key is already present). -/

/-- struct HttpRouterConfiguration. -/
structure HttpRouterConfiguration where
  rule : String
  service : String
deriving DecidableEq

/-- struct ServiceUrl. -/
structure ServiceUrl where
  url : Url
deriving DecidableEq

/-- struct LoadBalancerHttpServiceConfiguration. -/
structure LoadBalancerHttpServiceConfiguration where
  servers : List ServiceUrl
deriving DecidableEq

/-- enum HttpServiceType. -/
inductive HttpServiceType where
  | LoadBalancer (config : LoadBalancerHttpServiceConfiguration)
deriving DecidableEq

/-- struct HttpServiceConfiguration. -/
structure HttpServiceConfiguration where
  service_type : HttpServiceType
deriving DecidableEq

/-- BTreeMap::insert on the sorted-association-list embedding. -/
def btreeInsert {β : Type} (k : String) (v : β) :
    List (String × β) → List (String × β)
  | [] => [(k, v)]
  | kv :: rest =>
    if strLt k kv.1 then (k, v) :: kv :: rest
    else if strLt kv.1 k then kv :: btreeInsert k v rest
    else (k, v) :: rest

/-- BTreeMap::get on the embedding (keys that compare Equal are equal
strings). -/
def btreeFind {β : Type} (k : String) : List (String × β) → Option β
  | [] => none
  | kv :: rest => if kv.1 = k then some kv.2 else btreeFind k rest

/-- struct HttpConfiguration. -/
structure HttpConfiguration where
  routers : List (String × HttpRouterConfiguration)
  services : List (String × HttpServiceConfiguration)
deriving DecidableEq

/-- struct DynamicConfiguration. -/
structure DynamicConfiguration where
  http : HttpConfiguration
deriving DecidableEq

/-- struct DynamicConfigurationBuilder. -/
structure DynamicConfigurationBuilder where
  routers : List (String × HttpRouterConfiguration)
  services : List (String × HttpServiceConfiguration)
  base_url : Url
deriving DecidableEq

/-- DynamicConfigurationBuilder::new. -/
def DynamicConfigurationBuilder.new (base_url : Url) : DynamicConfigurationBuilder :=
  { base_url := base_url, routers := [], services := [] }

/-- The service entry registered for one backend URL: a LoadBalancer service
with a single-element server list. -/
def singleServerService (u : Url) : HttpServiceConfiguration :=
  ⟨.LoadBalancer ⟨[⟨u⟩]⟩⟩

/-- The loop body of the MultiplePorts arm of add_container: for each entry,
clone the base address, overwrite its port with the entry's target_port
(failing the whole call if the base cannot carry a port), and insert one
service entry under the entry's service_name and one router entry under the
entry's router name. -/
def addMultiPortEntries (base : Url) :
    List TraefikedContainerMultiPortConfig →
    List (String × HttpRouterConfiguration) →
    List (String × HttpServiceConfiguration) →
    Except String (List (String × HttpRouterConfiguration) ×
      List (String × HttpServiceConfiguration))
  | [], routers, services => .ok (routers, services)
  | c :: rest, routers, services =>
    match setPort base c.target_port with
    | none => .error "Cannot append container public port to base_url."
    | some url =>
      addMultiPortEntries base rest
        (btreeInsert c.config.router_name ⟨c.config.rule, c.service_name⟩ routers)
        (btreeInsert c.service_name (singleServerService url) services)

/-- DynamicConfigurationBuilder::add_container. -/
def add_container (b : DynamicConfigurationBuilder) (container : TraefikedContainer) :
    Except String DynamicConfigurationBuilder :=
  match container.config with
  | .SinglePort config =>
    match container.public_ports with
    | [] =>
      .error ("No public port specified for container \x27" ++ container.name ++ "\x27")
    | public_port :: _ =>
      match setPort b.base_url public_port with
      | none => .error "Cannot append container public port to base_url."
      | some url =>
        .ok { b with
          services := btreeInsert container.name (singleServerService url) b.services,
          routers := btreeInsert config.router_name
            ⟨config.rule, container.name⟩ b.routers }
  | .MultiplePorts config =>
    match addMultiPortEntries b.base_url config b.routers b.services with
    | .error e => .error e
    | .ok rs => .ok { b with routers := rs.1, services := rs.2 }

/-- DynamicConfigurationBuilder::build. -/
def DynamicConfigurationBuilder.build (b : DynamicConfigurationBuilder) :
    DynamicConfiguration :=
  ⟨⟨b.routers, b.services⟩⟩

/-! ### YAML serialization (serde_yaml output of IntoResponse) -/

/-- YAML rendering of the routers map, matching the serde_yaml output shape
asserted by the repository's tests (plain scalars unquoted). -/
def routersToYaml (rs : List (String × HttpRouterConfiguration)) : String :=
  match rs with
  | [] => "  routers: {}\n"
  | _ =>
    "  routers:\n" ++ String.join (rs.map fun kv =>
      "    " ++ kv.1 ++ ":\n      rule: " ++ kv.2.rule ++
        "\n      service: " ++ kv.2.service ++ "\n")

/-- YAML rendering of one service entry. -/
def serviceToYaml (kv : String × HttpServiceConfiguration) : String :=
  match kv.2.service_type with
  | .LoadBalancer lb =>
    "    " ++ kv.1 ++ ":\n      loadBalancer:\n        servers:\n" ++
      String.join (lb.servers.map fun s => "        - url: " ++ urlToString s.url ++ "\n")

/-- YAML rendering of the services map. -/
def servicesToYaml (ss : List (String × HttpServiceConfiguration)) : String :=
  match ss with
  | [] => "  services: {}\n"
  | _ => "  services:\n" ++ String.join (ss.map serviceToYaml)

/-- serde_yaml::to_string of a DynamicConfiguration: the body of the
/dynamic_configuration response. -/
def toYaml (d : DynamicConfiguration) : String :=
  "http:\n" ++ routersToYaml d.http.routers ++ servicesToYaml d.http.services

/-! ### The Container Adapter (TryFrom<ContainerSummary> of src/lib.rs) -/

/-- One entry of ContainerSummary.ports (bollard::models::Port), restricted to
the only field the program reads. -/
structure PortSummary where
  public_port : Option Nat
deriving DecidableEq

/-- bollard::models::ContainerSummary restricted to the fields the program
reads.  The label HashMap is embedded as an association list in some iteration
order. -/
structure ContainerSummary where
  names : Option (List String)
  ports : Option (List PortSummary)
  labels : Option (List (String × String))
deriving DecidableEq

/-- Failure modes of the adapter.  The first three are the anyhow errors the
code returns; the crash cases model panics of the name handling: .first()
.expect(..) on an empty names vector, and the byte slice [1..] applied to an
empty name or to a name whose first character is not one byte of UTF-8. -/
inductive AdapterError where
  | noName
  | noPorts
  | noConfig
  | crashEmptyNames
  | crashNameSlice
deriving DecidableEq

/-- Whether the failure is a panic rather than a returned error. -/
def AdapterError.isCrash : AdapterError → Bool
  | .crashEmptyNames => true
  | .crashNameSlice => true
  | _ => false

/-- The name normalization clone()[1..]: drops the first byte of the name,
whatever it is; panics (none) on an empty name or when byte index 1 is not a
character boundary, i.e. when the first character is not ASCII. -/
def stripFirstByte (s : String) : Option String :=
  match s.toList with
  | [] => none
  | c :: rest => if c.toNat < 128 then some (String.mk rest) else none

/-- TryFrom<ContainerSummary> for TraefikedContainer: take the first name and
drop its first byte, collect the public ports, and extract the routing
configuration from the labels; each missing piece is an error, in this
order. -/
def tryFromContainerSummary (value : ContainerSummary) :
    Except AdapterError TraefikedContainer :=
  match value.names with
  | none => .error .noName
  | some [] => .error .crashEmptyNames
  | some (n :: _) =>
    match stripFirstByte n with
    | none => .error .crashNameSlice
    | some name =>
      match value.ports with
      | none => .error .noPorts
      | some ports =>
        let public_ports := ports.filterMap (·.public_port)
        match value.labels with
        | none => .error .noConfig
        | some labels =>
          match extract_traefik_config labels with
          | none => .error .noConfig
          | some config => .ok ⟨name, public_ports, config⟩

/-! ### Discovery and the HTTP handler (pure parts of src/docker.rs, src/main.rs) -/

/-- The pre-filter of get_traefik_labeled_containers:
c.labels.as_ref().and_then(extract_traefik_config).is_some(). -/
def hasTraefikConfig (c : ContainerSummary) : Bool :=
  match c.labels with
  | some labels => (extract_traefik_config labels).isSome
  | none => false

/-- The container-processing pipeline of get_traefik_labeled_containers,
applied to the engine's container list: keep containers whose labels extract
to a configuration, then adapt each one, silently dropping a container whose
adaptation returns an error (filter_map(|c| c.try_into().ok())); a panic in
the adapter propagates. -/
def get_traefik_labeled_containers :
    List ContainerSummary → Except AdapterError (List TraefikedContainer)
  | [] => .ok []
  | c :: rest =>
    if hasTraefikConfig c then
      match tryFromContainerSummary c with
      | .ok t =>
        match get_traefik_labeled_containers rest with
        | .ok ts => .ok (t :: ts)
        | .error e => .error e
      | .error e =>
        if e.isCrash then .error e else get_traefik_labeled_containers rest
    else get_traefik_labeled_containers rest

/-- The builder loop of the /dynamic_configuration handler: chain
add_container over the discovered containers, aborting on the first build
error. -/
def foldContainers :
    DynamicConfigurationBuilder → List TraefikedContainer →
    Except String DynamicConfigurationBuilder
  | b, [] => .ok b
  | b, c :: rest =>
    match add_container b c with
    | .ok b2 => foldContainers b2 rest
    | .error e => .error e

/-- Failure of a /dynamic_configuration request: a propagated adapter panic,
or a build error (both render as a 500 response). -/
inductive AppError where
  | adapterCrash (e : AdapterError)
  | buildFailure (msg : String)
deriving DecidableEq

/-- The pure content of the /dynamic_configuration handler, given the
container list returned by the engine: discover, build, and produce the
document. -/
def dynamic_configuration (base_url : Url) (cs : List ContainerSummary) :
    Except AppError DynamicConfiguration :=
  match get_traefik_labeled_containers cs with
  | .error e => .error (.adapterCrash e)
  | .ok containers =>
    match foldContainers (DynamicConfigurationBuilder.new base_url) containers with
    | .error m => .error (.buildFailure m)
    | .ok b => .ok b.build

/-! ### Properties of the stable sort -/

theorem sortByName_perm {β : Type} (l : List (String × β)) :
    (sortByName l).Perm l :=
  List.perm_insertionSort _ l

theorem sortByName_length {β : Type} (l : List (String × β)) :
    (sortByName l).length = l.length :=
  (sortByName_perm l).length_eq

theorem sortByName_sorted {β : Type} (l : List (String × β)) :
    List.Sorted (fun a b => strLe a.1 b.1 = true) (sortByName l) := by
  have htot : IsTotal (String × β) (fun a b => strLe a.1 b.1 = true) :=
    ⟨fun a b => strLe_total a.1 b.1⟩
  have htr : IsTrans (String × β) (fun a b => strLe a.1 b.1 = true) :=
    ⟨fun _ _ _ => strLe_trans⟩
  exact List.sorted_insertionSort _ l

theorem one_lt_length_shape {α : Type} {l : List α} (h : 1 < l.length) :
    ∃ a b t, l = a :: b :: t := by
  match l, h with
  | a :: b :: t, _ => exact ⟨a, b, t, rfl⟩

/-! ### Claim C2 -/

/-- C2: the Label Extractor returns None if and only if the label map has zero
router-rule keys, or it has more than one router-rule key and the number of
valid service/port keys (keys matching the service pattern whose value parses
as an unsigned 16-bit integer) differs from the number of router-rule keys. -/
theorem extract_none_iff (labels : List (String × String)) :
    extract_traefik_config labels = none ↔
      routerPairs labels = [] ∨
      (1 < (routerPairs labels).length ∧
        (servicePairs labels).length ≠ (routerPairs labels).length) := by
  have hr0 : (routerPairs labels = []) ↔ (routerPairs labels).length = 0 := by
    constructor
    · intro h
      rw [h]
      rfl
    · intro h
      exact List.eq_nil_of_length_eq_zero h
  unfold extract_traefik_config
  cases hs : sortByName (routerPairs labels) with
  | nil =>
    have hlen := sortByName_length (routerPairs labels)
    rw [hs] at hlen
    simp only [List.length_nil] at hlen
    have h0 : routerPairs labels = [] := List.eq_nil_of_length_eq_zero hlen.symm
    simp [h0]
  | cons r1 t =>
    obtain ⟨rn, ru⟩ := r1
    have hlen := sortByName_length (routerPairs labels)
    rw [hs] at hlen
    cases t with
    | nil =>
      simp only [List.length_cons, List.length_nil] at hlen
      show some (TraefikedContainerConfig.SinglePort ⟨rn, ru⟩) = none ↔ _
      constructor
      · intro h
        exact Option.noConfusion h
      · rintro (h | ⟨h1, _⟩)
        · rw [hr0] at h
          omega
        · omega
    | cons r2 t2 =>
      simp only [List.length_cons] at hlen
      have hslen := sortByName_length (servicePairs labels)
      show multiPortResult labels ((rn, ru) :: r2 :: t2) = none ↔ _
      unfold multiPortResult
      constructor
      · intro h
        by_cases hif :
            (sortByName (servicePairs labels)).length = ((rn, ru) :: r2 :: t2).length
        · rw [if_pos hif] at h
          exact absurd h (by simp)
        · refine Or.inr ⟨by omega, ?_⟩
          simp only [List.length_cons] at hif
          omega
      · rintro (h | ⟨h1, h2⟩)
        · rw [hr0] at h
          omega
        · have hif :
              ¬ (sortByName (servicePairs labels)).length = ((rn, ru) :: r2 :: t2).length := by
            simp only [List.length_cons]
            omega
          rw [if_neg hif]

/-! ### Claim C3 -/

/-- C3: a label map with exactly one router-rule key extracts to SinglePort
carrying that key's captured router name and the label's value as the rule,
whatever service/port labels are present. -/
theorem extract_single_router (labels : List (String × String))
    (router_name rule : String)
    (h : routerPairs labels = [(router_name, rule)]) :
    extract_traefik_config labels =
      some (.SinglePort ⟨router_name, rule⟩) := by
  unfold extract_traefik_config
  rw [h]
  rfl

/-! ### Claim C1 -/

/-- C1: with N>1 router pairs and exactly N service pairs, the extractor
returns MultiplePorts built by positionally zipping the router list sorted
ascending by router name with the service list sorted ascending by service
name, giving exactly N entries. -/
theorem extract_multiport_sorted_zip (labels : List (String × String)) (n : Nat)
    (hn : (routerPairs labels).length = n) (h1 : 1 < n)
    (hs : (servicePairs labels).length = n) :
    ∃ rs ss,
      rs.Perm (routerPairs labels) ∧
      List.Sorted (fun a b => strLe a.1 b.1 = true) rs ∧
      ss.Perm (servicePairs labels) ∧
      List.Sorted (fun a b => strLe a.1 b.1 = true) ss ∧
      extract_traefik_config labels =
        some (.MultiplePorts ((rs.zip ss).map mkMultiPortEntry)) ∧
      ((rs.zip ss).map mkMultiPortEntry).length = n := by
  refine ⟨sortByName (routerPairs labels), sortByName (servicePairs labels),
    sortByName_perm _, sortByName_sorted _, sortByName_perm _, sortByName_sorted _,
    ?_, ?_⟩
  · have hrl : (sortByName (routerPairs labels)).length = n := by
      rw [sortByName_length, hn]
    obtain ⟨a, b, t, hshape⟩ := one_lt_length_shape (l := sortByName (routerPairs labels))
      (by rw [hrl]; exact h1)
    unfold extract_traefik_config
    rw [hshape]
    obtain ⟨a1, a2⟩ := a
    show multiPortResult labels ((a1, a2) :: b :: t) = _
    unfold multiPortResult
    have hsl : (sortByName (servicePairs labels)).length = ((a1, a2) :: b :: t).length := by
      rw [sortByName_length, hs, ← hshape, hrl]
    rw [if_pos hsl, ← hshape]
  · have hrl : (sortByName (routerPairs labels)).length = n := by
      rw [sortByName_length, hn]
    have hsl : (sortByName (servicePairs labels)).length = n := by
      rw [sortByName_length, hs]
    rw [List.length_map, List.length_zip, hrl, hsl, min_self]

/-! ### Properties of the BTreeMap embedding -/

theorem mem_btreeInsert {β : Type} {x : String × β} {k : String} {v : β}
    {l : List (String × β)} (h : x ∈ btreeInsert k v l) : x = (k, v) ∨ x ∈ l := by
  induction l with
  | nil =>
    simp only [btreeInsert, List.mem_singleton] at h
    exact Or.inl h
  | cons kv rest ih =>
    unfold btreeInsert at h
    by_cases h1 : strLt k kv.1 = true
    · rw [if_pos h1] at h
      rcases List.mem_cons.mp h with h2 | h2
      · exact Or.inl h2
      · exact Or.inr h2
    · rw [if_neg h1] at h
      by_cases h2 : strLt kv.1 k = true
      · rw [if_pos h2] at h
        rcases List.mem_cons.mp h with h3 | h3
        · exact Or.inr (List.mem_cons.mpr (Or.inl h3))
        · rcases ih h3 with h4 | h4
          · exact Or.inl h4
          · exact Or.inr (List.mem_cons.mpr (Or.inr h4))
      · rw [if_neg h2] at h
        rcases List.mem_cons.mp h with h3 | h3
        · exact Or.inl h3
        · exact Or.inr (List.mem_cons.mpr (Or.inr h3))

theorem btreeInsert_pairwise {β : Type} {l : List (String × β)} (k : String) (v : β)
    (h : List.Pairwise (fun x y => strLt x.1 y.1 = true) l) :
    List.Pairwise (fun x y => strLt x.1 y.1 = true) (btreeInsert k v l) := by
  induction l with
  | nil => simp [btreeInsert]
  | cons kv rest ih =>
    rw [List.pairwise_cons] at h
    obtain ⟨hhead, htail⟩ := h
    unfold btreeInsert
    by_cases h1 : strLt k kv.1 = true
    · rw [if_pos h1]
      refine List.pairwise_cons.mpr ⟨?_, List.pairwise_cons.mpr ⟨hhead, htail⟩⟩
      intro y hy
      rcases List.mem_cons.mp hy with h2 | h2
      · rw [h2]
        exact h1
      · exact strLt_trans h1 (hhead y h2)
    · rw [if_neg h1]
      by_cases h2 : strLt kv.1 k = true
      · rw [if_pos h2]
        refine List.pairwise_cons.mpr ⟨?_, ih htail⟩
        intro y hy
        rcases mem_btreeInsert hy with h3 | h3
        · rw [h3]
          exact h2
        · exact hhead y h3
      · rw [if_neg h2]
        have hk : k = kv.1 :=
          strEq_of_not_lt (Bool.not_eq_true _ ▸ h1) (Bool.not_eq_true _ ▸ h2)
        refine List.pairwise_cons.mpr ⟨?_, htail⟩
        intro y hy
        rw [hk]
        exact hhead y hy

theorem btreeFind_insert_self {β : Type} (k : String) (v : β)
    (l : List (String × β)) : btreeFind k (btreeInsert k v l) = some v := by
  induction l with
  | nil => simp [btreeInsert, btreeFind]
  | cons kv rest ih =>
    unfold btreeInsert
    by_cases h1 : strLt k kv.1 = true
    · rw [if_pos h1]
      simp [btreeFind]
    · rw [if_neg h1]
      by_cases h2 : strLt kv.1 k = true
      · rw [if_pos h2]
        unfold btreeFind
        have hne : kv.1 ≠ k := by
          intro heq
          rw [heq, strLt_irrefl] at h2
          exact Bool.noConfusion h2
        rw [if_neg hne]
        exact ih
      · rw [if_neg h2]
        simp [btreeFind]

theorem btreeFind_insert_ne {β : Type} {k k2 : String} (h : k ≠ k2) (v : β)
    (l : List (String × β)) : btreeFind k (btreeInsert k2 v l) = btreeFind k l := by
  induction l with
  | nil =>
    simp only [btreeInsert, btreeFind]
    rw [if_neg (fun heq => h heq.symm)]
  | cons kv rest ih =>
    unfold btreeInsert
    by_cases h1 : strLt k2 kv.1 = true
    · rw [if_pos h1]
      unfold btreeFind
      rw [if_neg (fun heq => h heq.symm)]
      rfl
    · rw [if_neg h1]
      by_cases h2 : strLt kv.1 k2 = true
      · rw [if_pos h2]
        unfold btreeFind
        by_cases h3 : kv.1 = k
        · rw [if_pos h3, if_pos h3]
        · rw [if_neg h3, if_neg h3]
          exact ih
      · rw [if_neg h2]
        have hk : k2 = kv.1 :=
          strEq_of_not_lt (Bool.not_eq_true _ ▸ h1) (Bool.not_eq_true _ ▸ h2)
        unfold btreeFind
        have hne1 : (k2, v).1 ≠ k := fun heq => h heq.symm
        have hne2 : kv.1 ≠ k := fun heq => h ((hk.trans heq).symm)
        rw [if_neg hne1, if_neg hne2]

/-! ### Properties of the MultiplePorts loop -/

/-- One iteration of the MultiplePorts loop of add_container, once the
port overwrite is known to succeed. -/
def multiStep (base : Url)
    (rs : List (String × HttpRouterConfiguration) ×
      List (String × HttpServiceConfiguration))
    (c : TraefikedContainerMultiPortConfig) :
    List (String × HttpRouterConfiguration) ×
      List (String × HttpServiceConfiguration) :=
  (btreeInsert c.config.router_name ⟨c.config.rule, c.service_name⟩ rs.1,
   btreeInsert c.service_name (singleServerService (overwritePort base c.target_port)) rs.2)

theorem setPort_of_canHavePort {base : Url} (hbase : base.canHavePort = true)
    (p : Nat) : setPort base p = some (overwritePort base p) := by
  unfold setPort
  rw [if_pos hbase]

theorem addMultiPortEntries_ok {base : Url} (hbase : base.canHavePort = true)
    (cfgs : List TraefikedContainerMultiPortConfig)
    (routers : List (String × HttpRouterConfiguration))
    (services : List (String × HttpServiceConfiguration)) :
    addMultiPortEntries base cfgs routers services =
      .ok (cfgs.foldl (multiStep base) (routers, services)) := by
  induction cfgs generalizing routers services with
  | nil => rfl
  | cons c rest ih =>
    unfold addMultiPortEntries
    rw [setPort_of_canHavePort hbase]
    rw [List.foldl_cons]
    exact ih _ _

theorem addMultiPortEntries_error_iff (base : Url)
    (cfgs : List TraefikedContainerMultiPortConfig)
    (routers : List (String × HttpRouterConfiguration))
    (services : List (String × HttpServiceConfiguration)) (e : String) :
    addMultiPortEntries base cfgs routers services = .error e ↔
      (cfgs ≠ [] ∧ base.canHavePort = false ∧
        e = "Cannot append container public port to base_url.") := by
  cases hb : base.canHavePort with
  | true =>
    rw [addMultiPortEntries_ok hb]
    simp
  | false =>
    cases cfgs with
    | nil =>
      simp [addMultiPortEntries]
    | cons c rest =>
      unfold addMultiPortEntries
      rw [show setPort base c.target_port = none from by
        unfold setPort; rw [if_neg (by simp [hb])]]
      constructor
      · intro h
        injection h with h2
        exact ⟨by simp, rfl, h2.symm⟩
      · rintro ⟨-, -, rfl⟩
        rfl

theorem multiFold_routers_preserve (base : Url)
    (cfgs : List TraefikedContainerMultiPortConfig)
    (rs : List (String × HttpRouterConfiguration) ×
      List (String × HttpServiceConfiguration)) (k : String)
    (hrk : ∀ c ∈ cfgs, c.config.router_name ≠ k) :
    btreeFind k (cfgs.foldl (multiStep base) rs).1 = btreeFind k rs.1 := by
  induction cfgs generalizing rs with
  | nil => rfl
  | cons c rest ih =>
    rw [List.foldl_cons]
    have hih := ih (multiStep base rs c)
      (fun x hx => hrk x (List.mem_cons.mpr (Or.inr hx)))
    exact hih.trans
      (btreeFind_insert_ne (Ne.symm (hrk c (List.mem_cons.mpr (Or.inl rfl)))) _ _)

theorem multiFold_services_preserve (base : Url)
    (cfgs : List TraefikedContainerMultiPortConfig)
    (rs : List (String × HttpRouterConfiguration) ×
      List (String × HttpServiceConfiguration)) (k : String)
    (hsk : ∀ c ∈ cfgs, c.service_name ≠ k) :
    btreeFind k (cfgs.foldl (multiStep base) rs).2 = btreeFind k rs.2 := by
  induction cfgs generalizing rs with
  | nil => rfl
  | cons c rest ih =>
    rw [List.foldl_cons]
    have hih := ih (multiStep base rs c)
      (fun x hx => hsk x (List.mem_cons.mpr (Or.inr hx)))
    exact hih.trans
      (btreeFind_insert_ne (Ne.symm (hsk c (List.mem_cons.mpr (Or.inl rfl)))) _ _)

theorem multiFold_find_service (base : Url)
    (cfgs : List TraefikedContainerMultiPortConfig)
    (rs : List (String × HttpRouterConfiguration) ×
      List (String × HttpServiceConfiguration))
    (e : TraefikedContainerMultiPortConfig) (he : e ∈ cfgs)
    (hdist : List.Pairwise (fun x y => x.service_name ≠ y.service_name) cfgs) :
    btreeFind e.service_name (cfgs.foldl (multiStep base) rs).2 =
      some (singleServerService (overwritePort base e.target_port)) := by
  induction cfgs generalizing rs with
  | nil => cases he
  | cons c rest ih =>
    rw [List.foldl_cons]
    rcases List.mem_cons.mp he with rfl | hmem
    · have hhead := (List.pairwise_cons.mp hdist).1
      have hpres := multiFold_services_preserve base rest (multiStep base rs e)
        e.service_name (fun x hx h3 => (hhead x hx) h3.symm)
      exact hpres.trans (btreeFind_insert_self _ _ _)
    · exact ih _ hmem (List.pairwise_cons.mp hdist).2

theorem multiFold_find_router (base : Url)
    (cfgs : List TraefikedContainerMultiPortConfig)
    (rs : List (String × HttpRouterConfiguration) ×
      List (String × HttpServiceConfiguration))
    (e : TraefikedContainerMultiPortConfig) (he : e ∈ cfgs)
    (hdist : List.Pairwise
      (fun x y => x.config.router_name ≠ y.config.router_name) cfgs) :
    btreeFind e.config.router_name (cfgs.foldl (multiStep base) rs).1 =
      some ⟨e.config.rule, e.service_name⟩ := by
  induction cfgs generalizing rs with
  | nil => cases he
  | cons c rest ih =>
    rw [List.foldl_cons]
    rcases List.mem_cons.mp he with rfl | hmem
    · have hhead := (List.pairwise_cons.mp hdist).1
      have hpres := multiFold_routers_preserve base rest (multiStep base rs e)
        e.config.router_name (fun x hx h3 => (hhead x hx) h3.symm)
      exact hpres.trans (btreeFind_insert_self _ _ _)
    · exact ih _ hmem (List.pairwise_cons.mp hdist).2

/-! ### Claim C4 -/

/-- C4: for a SinglePort container, add_container fails with the
no-public-port error naming the container when the published-ports list is
empty; otherwise it takes the first published port and registers exactly one
service (named by the container, with one backend equal to the base address
with its port overwritten by that first port) and one router (under the
config's router name, pointing at that service with the config's rule); and
on the base address http://192.168.1.100 a published port 7878 yields the
backend http://192.168.1.100:7878/. -/
theorem add_container_single_port_spec (b : DynamicConfigurationBuilder)
    (container : TraefikedContainer)
    (config : TraefikedContainerSinglePortConfig)
    (hc : container.config = .SinglePort config) :
    (container.public_ports = [] →
      add_container b container =
        .error ("No public port specified for container \x27" ++
          container.name ++ "\x27")) ∧
    (∀ p ps u, container.public_ports = p :: ps →
      setPort b.base_url p = some u →
      add_container b container = .ok { b with
        services := btreeInsert container.name (singleServerService u) b.services,
        routers := btreeInsert config.router_name
          ⟨config.rule, container.name⟩ b.routers }) ∧
    (setPort exampleBaseUrl 7878).map urlToString =
      some "http://192.168.1.100:7878/" := by
  obtain ⟨name, ports, cfg⟩ := container
  have hc2 : cfg = .SinglePort config := hc
  subst hc2
  refine ⟨?_, ?_, by rfl⟩
  · intro hp
    have hp2 : ports = [] := hp
    subst hp2
    rfl
  · intro p ps u hp hu
    have hp2 : ports = p :: ps := hp
    subst hp2
    simp only [add_container]
    rw [hu]

/-- Witness for C4 at concrete inputs: the repository's builder-test
container, and an empty-ports container. -/
theorem add_container_single_port_spec_witness :
    add_container (DynamicConfigurationBuilder.new exampleBaseUrl)
        ⟨"my-service", [7878], .SinglePort ⟨"to-my-service", "HostRule"⟩⟩ =
      .ok { (DynamicConfigurationBuilder.new exampleBaseUrl) with
        services := btreeInsert "my-service"
          (singleServerService { exampleBaseUrl with port := some 7878 })
          (DynamicConfigurationBuilder.new exampleBaseUrl).services,
        routers := btreeInsert "to-my-service" ⟨"HostRule", "my-service"⟩
          (DynamicConfigurationBuilder.new exampleBaseUrl).routers } ∧
    add_container (DynamicConfigurationBuilder.new exampleBaseUrl)
        ⟨"empty", [], .SinglePort ⟨"r", "R"⟩⟩ =
      .error "No public port specified for container \x27empty\x27" := by
  constructor
  · exact (add_container_single_port_spec
      (DynamicConfigurationBuilder.new exampleBaseUrl)
      ⟨"my-service", [7878], .SinglePort ⟨"to-my-service", "HostRule"⟩⟩
      ⟨"to-my-service", "HostRule"⟩ rfl).2.1 7878 []
      { exampleBaseUrl with port := some 7878 } rfl (by rfl)
  · exact (add_container_single_port_spec
      (DynamicConfigurationBuilder.new exampleBaseUrl)
      ⟨"empty", [], .SinglePort ⟨"r", "R"⟩⟩ ⟨"r", "R"⟩ rfl).1 rfl

/-! ### Claim C5 -/

/-- C5: for a MultiPort container over a base address that can carry a port,
add_container succeeds; the published-ports list is never consulted (the
result is unchanged under any replacement of it, so an empty list also
succeeds); and (with distinct names) each entry yields one service under its
service_name whose single backend is the base address with its port
overwritten by the entry's target_port, and one router under its router name
with the entry's rule pointing at that service. -/
theorem add_container_multi_port_spec (b : DynamicConfigurationBuilder)
    (container : TraefikedContainer)
    (cfgs : List TraefikedContainerMultiPortConfig)
    (hc : container.config = .MultiplePorts cfgs)
    (hbase : b.base_url.canHavePort = true) :
    (∃ b2, add_container b container = .ok b2) ∧
    (∀ ports2, add_container b { container with public_ports := ports2 } =
      add_container b container) ∧
    (∀ b2, add_container b container = .ok b2 →
      (List.Pairwise (fun x y => x.service_name ≠ y.service_name) cfgs →
        ∀ e ∈ cfgs, btreeFind e.service_name b2.services =
          some (singleServerService (overwritePort b.base_url e.target_port))) ∧
      (List.Pairwise
          (fun x y => x.config.router_name ≠ y.config.router_name) cfgs →
        ∀ e ∈ cfgs, btreeFind e.config.router_name b2.routers =
          some ⟨e.config.rule, e.service_name⟩)) := by
  obtain ⟨name, ports, cfg⟩ := container
  have hc2 : cfg = .MultiplePorts cfgs := hc
  subst hc2
  have hok : add_container b ⟨name, ports, .MultiplePorts cfgs⟩ =
      .ok { b with
        routers := (cfgs.foldl (multiStep b.base_url) (b.routers, b.services)).1,
        services := (cfgs.foldl (multiStep b.base_url) (b.routers, b.services)).2 } := by
    simp only [add_container]
    rw [addMultiPortEntries_ok hbase]
  refine ⟨⟨_, hok⟩, fun ports2 => rfl, ?_⟩
  intro b2 h2
  rw [hok] at h2
  injection h2 with h3
  subst h3
  constructor
  · intro hdist e he
    exact multiFold_find_service b.base_url cfgs (b.routers, b.services) e he hdist
  · intro hdist e he
    exact multiFold_find_router b.base_url cfgs (b.routers, b.services) e he hdist

/-- Witness for C5 at a concrete two-entry MultiPort container with an empty
published-ports list. -/
theorem add_container_multi_port_spec_witness :
    (∃ b2, add_container (DynamicConfigurationBuilder.new exampleBaseUrl)
      ⟨"multi", [], .MultiplePorts
        [⟨⟨"ra", "RA"⟩, "sa", 8080⟩, ⟨⟨"rb", "RB"⟩, "sb", 9090⟩]⟩ = .ok b2) ∧
    add_container (DynamicConfigurationBuilder.new exampleBaseUrl)
      ⟨"multi", [1234], .MultiplePorts
        [⟨⟨"ra", "RA"⟩, "sa", 8080⟩, ⟨⟨"rb", "RB"⟩, "sb", 9090⟩]⟩ =
    add_container (DynamicConfigurationBuilder.new exampleBaseUrl)
      ⟨"multi", [], .MultiplePorts
        [⟨⟨"ra", "RA"⟩, "sa", 8080⟩, ⟨⟨"rb", "RB"⟩, "sb", 9090⟩]⟩ := by
  have h := add_container_multi_port_spec
    (DynamicConfigurationBuilder.new exampleBaseUrl)
    ⟨"multi", [], .MultiplePorts
      [⟨⟨"ra", "RA"⟩, "sa", 8080⟩, ⟨⟨"rb", "RB"⟩, "sb", 9090⟩]⟩
    [⟨⟨"ra", "RA"⟩, "sa", 8080⟩, ⟨⟨"rb", "RB"⟩, "sb", 9090⟩] rfl rfl
  exact ⟨h.1, h.2.1 [1234]⟩

/-! ### Claim C10 -/

/-- C10: a failing add_container call inserts nothing: the error is decided
before any insertion (empty ports list or port-incapable base address in the
SinglePort arm; port-incapable base address, detected at the first entry, in
the MultiplePorts arm), and the same call fails identically on any builder
with the same base address regardless of its accumulated maps. -/
theorem add_container_error_atomic (b : DynamicConfigurationBuilder)
    (container : TraefikedContainer) (e : String)
    (h : add_container b container = .error e) :
    (∀ b2 : DynamicConfigurationBuilder, b2.base_url = b.base_url →
      add_container b2 container = .error e) ∧
    (match container.config with
     | .SinglePort _ =>
        container.public_ports = [] ∨ b.base_url.canHavePort = false
     | .MultiplePorts cfgs =>
        cfgs ≠ [] ∧ b.base_url.canHavePort = false) := by
  obtain ⟨name, ports, cfg⟩ := container
  cases cfg with
  | SinglePort config =>
    cases ports with
    | nil =>
      simp only [add_container] at h
      injection h with h2
      refine ⟨?_, Or.inl rfl⟩
      intro b2 _
      simp only [add_container]
      rw [h2]
    | cons p ps =>
      simp only [add_container] at h
      cases hsp : setPort b.base_url p with
      | none =>
        rw [hsp] at h
        injection h with h2
        have hch : b.base_url.canHavePort = false := by
          cases hch2 : b.base_url.canHavePort with
          | false => rfl
          | true =>
            rw [setPort_of_canHavePort hch2] at hsp
            exact Option.noConfusion hsp
        refine ⟨?_, Or.inr hch⟩
        intro b2 hb2
        simp only [add_container]
        rw [hb2, hsp, h2]
      | some u =>
        rw [hsp] at h
        exact Except.noConfusion h
  | MultiplePorts cfgs =>
    simp only [add_container] at h
    cases hm : addMultiPortEntries b.base_url cfgs b.routers b.services with
    | ok rs =>
      rw [hm] at h
      exact Except.noConfusion h
    | error e2 =>
      rw [hm] at h
      injection h with h2
      subst h2
      obtain ⟨hne, hch, hmsg⟩ :=
        (addMultiPortEntries_error_iff b.base_url cfgs b.routers b.services e2).mp hm
      refine ⟨?_, hne, hch⟩
      intro b2 hb2
      simp only [add_container]
      rw [show addMultiPortEntries b2.base_url cfgs b2.routers b2.services =
          .error e2 from
        (addMultiPortEntries_error_iff b2.base_url cfgs b2.routers b2.services e2).mpr
          ⟨hne, hb2 ▸ hch, hmsg⟩]

/-- Witness for C10: a SinglePort container with no published port fails
identically on an empty builder and on a builder with accumulated entries. -/
theorem add_container_error_atomic_witness :
    add_container (DynamicConfigurationBuilder.new exampleBaseUrl)
        ⟨"c", [], .SinglePort ⟨"r", "R"⟩⟩ =
      .error "No public port specified for container \x27c\x27" ∧
    add_container
        { routers := [("z", ⟨"RZ", "sz"⟩)],
          services := [("sz", singleServerService exampleBaseUrl)],
          base_url := exampleBaseUrl }
        ⟨"c", [], .SinglePort ⟨"r", "R"⟩⟩ =
      .error "No public port specified for container \x27c\x27" := by
  constructor
  · rfl
  · exact (add_container_error_atomic (DynamicConfigurationBuilder.new exampleBaseUrl)
      ⟨"c", [], .SinglePort ⟨"r", "R"⟩⟩
      "No public port specified for container \x27c\x27" rfl).1
      { routers := [("z", ⟨"RZ", "sz"⟩)],
        services := [("sz", singleServerService exampleBaseUrl)],
        base_url := exampleBaseUrl } rfl

/-! ### Claim C6 -/

/-- C6 counterexample: a container that passes the discovery pre-filter (its
labels extract to a configuration) but fails adaptation (no name) is silently
dropped by get_traefik_labeled_containers, so the /dynamic_configuration
request succeeds with an empty document instead of failing. -/
theorem adapter_failure_not_fatal :
    tryFromContainerSummary
      ⟨none, some [], some [("traefik.http.routers.a.rule", "R")]⟩ =
      .error .noName ∧
    hasTraefikConfig ⟨none, some [], some [("traefik.http.routers.a.rule", "R")]⟩ = true ∧
    dynamic_configuration exampleBaseUrl
      [⟨none, some [], some [("traefik.http.routers.a.rule", "R")]⟩] =
      .ok ⟨⟨[], []⟩⟩ :=
  ⟨rfl, rfl, rfl⟩

/-- C6 amended: a container whose adaptation returns an error (missing name,
missing ports, or no routing configuration) is silently skipped — the request
result is exactly as if the container were absent from the engine's list; the
request is not aborted.  (Only builder errors and adapter panics abort the
request.) -/
theorem adapter_failure_skipped (base : Url) (pre post : List ContainerSummary)
    (c : ContainerSummary) (e : AdapterError)
    (he : tryFromContainerSummary c = .error e) (hnc : e.isCrash = false) :
    dynamic_configuration base (pre ++ c :: post) =
      dynamic_configuration base (pre ++ post) := by
  have hcons : ∀ (d : ContainerSummary) (rest : List ContainerSummary),
      get_traefik_labeled_containers (d :: rest) =
        if hasTraefikConfig d then
          match tryFromContainerSummary d with
          | .ok t =>
            match get_traefik_labeled_containers rest with
            | .ok ts => .ok (t :: ts)
            | .error e2 => .error e2
          | .error e2 =>
            if e2.isCrash then .error e2 else get_traefik_labeled_containers rest
        else get_traefik_labeled_containers rest := fun d rest => rfl
  have hg : ∀ post2 : List ContainerSummary,
      get_traefik_labeled_containers (c :: post2) =
        get_traefik_labeled_containers post2 := by
    intro post2
    rw [hcons]
    cases hf : hasTraefikConfig c with
    | false => rw [if_neg (by simp [hf])]
    | true =>
      rw [if_pos rfl, he]
      show (if e.isCrash = true then Except.error e
        else get_traefik_labeled_containers post2) = _
      rw [hnc]
      simp
  have hg2 : get_traefik_labeled_containers (pre ++ c :: post) =
      get_traefik_labeled_containers (pre ++ post) := by
    induction pre with
    | nil => simpa using hg post
    | cons d rest ih =>
      simp only [List.cons_append]
      rw [hcons, hcons, ih]
  unfold dynamic_configuration
  rw [hg2]

/-- Witness for the amended C6: dropping a nameless (but labelled) container
from a two-container list leaves the response of the remaining container. -/
theorem adapter_failure_skipped_witness :
    dynamic_configuration exampleBaseUrl
      [⟨some ["/web"], some [⟨some 80⟩], some [("traefik.http.routers.a.rule", "R")]⟩,
       ⟨none, some [], some [("traefik.http.routers.x.rule", "R2")]⟩] =
    dynamic_configuration exampleBaseUrl
      [⟨some ["/web"], some [⟨some 80⟩], some [("traefik.http.routers.a.rule", "R")]⟩] :=
  adapter_failure_skipped exampleBaseUrl
    [⟨some ["/web"], some [⟨some 80⟩], some [("traefik.http.routers.a.rule", "R")]⟩] []
    ⟨none, some [], some [("traefik.http.routers.x.rule", "R2")]⟩ .noName rfl rfl

/-! ### Claim C7 -/

/-- C7 counterexample: a key with an extra leading character still yields a
router pair (the regexes are unanchored), so the extractor returns a
configuration where the claim requires none. -/
theorem router_key_substring_match :
    routerCapture "Xtraefik.http.routers.web.rule" = some "web" ∧
    extract_traefik_config [("Xtraefik.http.routers.web.rule", "R")] =
      some (.SinglePort ⟨"web", "R"⟩) :=
  ⟨rfl, rfl⟩

/-! ### Claim C8 -/

/-- C8 counterexample: a container whose name has no leading separator still
loses its first character: name "abc" is adapted to "bc", not kept intact. -/
theorem name_strip_unconditional :
    tryFromContainerSummary
      ⟨some ["abc"], some [⟨some 1⟩], some [("traefik.http.routers.a.rule", "R")]⟩ =
      .ok ⟨"bc", [1], .SinglePort ⟨"a", "R"⟩⟩ ∧
    ("bc" : String) ≠ "abc" :=
  ⟨rfl, by decide⟩

/-- C8 amended: the adapter fails with the missing-name error when the names
field is absent; otherwise it unconditionally removes the first character of
the first name, whether or not it is a separator (and panics when that name
is empty; the crash is modelled as a distinguished error). -/
theorem try_from_name_behavior (v : ContainerSummary) :
    (v.names = none → tryFromContainerSummary v = .error .noName) ∧
    (∀ n ns c cs t, v.names = some (n :: ns) → n.toList = c :: cs →
      c.toNat < 128 → tryFromContainerSummary v = .ok t →
      t.name = String.mk cs) ∧
    (∀ n ns, v.names = some (n :: ns) → n.toList = [] →
      tryFromContainerSummary v = .error .crashNameSlice) := by
  obtain ⟨names, ports, labels⟩ := v
  refine ⟨?_, ?_, ?_⟩
  · intro h
    have h2 : names = none := h
    subst h2
    rfl
  · intro n ns c cs t hn hcl hc h
    have h2 : names = some (n :: ns) := hn
    subst h2
    obtain ⟨nd⟩ := n
    have hnd : nd = c :: cs := hcl
    subst hnd
    have hstrip : stripFirstByte (String.mk (c :: cs)) = some (String.mk cs) := by
      show (if c.toNat < 128 then some (String.mk cs) else none) = some (String.mk cs)
      rw [if_pos hc]
    cases ports with
    | none =>
      have h3 : tryFromContainerSummary
          ⟨some (String.mk (c :: cs) :: ns), none, labels⟩ = .error .noPorts := by
        simp only [tryFromContainerSummary]
        rw [hstrip]
      rw [h3] at h
      exact Except.noConfusion h
    | some ps =>
      cases labels with
      | none =>
        have h3 : tryFromContainerSummary
            ⟨some (String.mk (c :: cs) :: ns), some ps, none⟩ = .error .noConfig := by
          simp only [tryFromContainerSummary]
          rw [hstrip]
        rw [h3] at h
        exact Except.noConfusion h
      | some ls =>
        cases hx : extract_traefik_config ls with
        | none =>
          have h3 : tryFromContainerSummary
              ⟨some (String.mk (c :: cs) :: ns), some ps, some ls⟩ =
              .error .noConfig := by
            simp only [tryFromContainerSummary]
            rw [hstrip, hx]
          rw [h3] at h
          exact Except.noConfusion h
        | some cfg =>
          have h3 : tryFromContainerSummary
              ⟨some (String.mk (c :: cs) :: ns), some ps, some ls⟩ =
              .ok ⟨String.mk cs, ps.filterMap (·.public_port), cfg⟩ := by
            simp only [tryFromContainerSummary]
            rw [hstrip, hx]
          rw [h3] at h
          injection h with h4
          rw [← h4]
  · intro n ns hn hcl
    have h2 : names = some (n :: ns) := hn
    subst h2
    obtain ⟨nd⟩ := n
    have hnd : nd = [] := hcl
    subst hnd
    rfl

/-- Witness for the amended C8 at concrete inputs: a missing names field, the
name "abc" losing its first character, and an empty name crashing. -/
theorem try_from_name_behavior_witness :
    tryFromContainerSummary ⟨none, none, none⟩ = .error .noName ∧
    ((⟨"bc", [1], .SinglePort ⟨"a", "R"⟩⟩ : TraefikedContainer).name =
      String.mk ['b', 'c']) ∧
    tryFromContainerSummary ⟨some [""], none, none⟩ = .error .crashNameSlice := by
  refine ⟨?_, ?_, ?_⟩
  · exact (try_from_name_behavior ⟨none, none, none⟩).1 rfl
  · exact (try_from_name_behavior
      ⟨some ["abc"], some [⟨some 1⟩], some [("traefik.http.routers.a.rule", "R")]⟩).2.1
      "abc" [] 'a' ['b', 'c'] ⟨"bc", [1], .SinglePort ⟨"a", "R"⟩⟩ rfl rfl
      (by decide) rfl
  · exact (try_from_name_behavior ⟨some [""], none, none⟩).2.2 "" [] rfl rfl

/-! ### Claim C9 -/

theorem addMultiPortEntries_pairwise (base : Url)
    (cfgs : List TraefikedContainerMultiPortConfig)
    (r : List (String × HttpRouterConfiguration))
    (s : List (String × HttpServiceConfiguration))
    (rs : List (String × HttpRouterConfiguration) ×
      List (String × HttpServiceConfiguration))
    (h : addMultiPortEntries base cfgs r s = .ok rs)
    (hr : List.Pairwise (fun x y => strLt x.1 y.1 = true) r)
    (hs : List.Pairwise (fun x y => strLt x.1 y.1 = true) s) :
    List.Pairwise (fun x y => strLt x.1 y.1 = true) rs.1 ∧
    List.Pairwise (fun x y => strLt x.1 y.1 = true) rs.2 := by
  induction cfgs generalizing r s with
  | nil =>
    unfold addMultiPortEntries at h
    injection h with h2
    subst h2
    exact ⟨hr, hs⟩
  | cons c rest ih =>
    unfold addMultiPortEntries at h
    cases hsp : setPort base c.target_port with
    | none =>
      rw [hsp] at h
      exact Except.noConfusion h
    | some u =>
      rw [hsp] at h
      exact ih _ _ h (btreeInsert_pairwise _ _ hr) (btreeInsert_pairwise _ _ hs)

theorem add_container_pairwise (b b2 : DynamicConfigurationBuilder)
    (c : TraefikedContainer) (h : add_container b c = .ok b2)
    (hr : List.Pairwise (fun x y => strLt x.1 y.1 = true) b.routers)
    (hs : List.Pairwise (fun x y => strLt x.1 y.1 = true) b.services) :
    List.Pairwise (fun x y => strLt x.1 y.1 = true) b2.routers ∧
    List.Pairwise (fun x y => strLt x.1 y.1 = true) b2.services := by
  obtain ⟨name, ports, cfg⟩ := c
  cases cfg with
  | SinglePort config =>
    cases ports with
    | nil =>
      simp only [add_container] at h
      exact Except.noConfusion h
    | cons p ps =>
      simp only [add_container] at h
      cases hsp : setPort b.base_url p with
      | none =>
        rw [hsp] at h
        exact Except.noConfusion h
      | some u =>
        rw [hsp] at h
        injection h with h2
        subst h2
        exact ⟨btreeInsert_pairwise _ _ hr, btreeInsert_pairwise _ _ hs⟩
  | MultiplePorts cfgs =>
    simp only [add_container] at h
    cases hm : addMultiPortEntries b.base_url cfgs b.routers b.services with
    | error e =>
      rw [hm] at h
      exact Except.noConfusion h
    | ok rs =>
      rw [hm] at h
      injection h with h2
      subst h2
      exact addMultiPortEntries_pairwise b.base_url cfgs b.routers b.services rs hm hr hs

theorem foldContainers_pairwise (cs : List TraefikedContainer)
    (b b2 : DynamicConfigurationBuilder) (h : foldContainers b cs = .ok b2)
    (hr : List.Pairwise (fun x y => strLt x.1 y.1 = true) b.routers)
    (hs : List.Pairwise (fun x y => strLt x.1 y.1 = true) b.services) :
    List.Pairwise (fun x y => strLt x.1 y.1 = true) b2.routers ∧
    List.Pairwise (fun x y => strLt x.1 y.1 = true) b2.services := by
  induction cs generalizing b with
  | nil =>
    unfold foldContainers at h
    injection h with h2
    subst h2
    exact ⟨hr, hs⟩
  | cons c rest ih =>
    unfold foldContainers at h
    cases ha : add_container b c with
    | error e =>
      rw [ha] at h
      exact Except.noConfusion h
    | ok b3 =>
      rw [ha] at h
      have hp := add_container_pairwise b b3 c ha hr hs
      exact ih _ h hp.1 hp.2

/-- C9: any document built from any list of containers (in any order) has its
routers map and its services map strictly sorted by key (hence they serialize
in lexicographic key order), and building and serializing twice from equal
inputs gives byte-identical YAML output.  (In this pure embedding the
second conjunct is determinism of a function; the substantive content is the
sortedness invariant, which is what makes the BTreeMap-backed output
independent of insertion order.) -/
theorem builder_maps_sorted_and_deterministic (base : Url)
    (cs : List TraefikedContainer) (b2 : DynamicConfigurationBuilder)
    (h : foldContainers (DynamicConfigurationBuilder.new base) cs = .ok b2) :
    List.Pairwise (fun x y => strLt x.1 y.1 = true) b2.build.http.routers ∧
    List.Pairwise (fun x y => strLt x.1 y.1 = true) b2.build.http.services ∧
    (∀ cs2, cs2 = cs →
      ∃ b3, foldContainers (DynamicConfigurationBuilder.new base) cs2 = .ok b3 ∧
        toYaml b3.build = toYaml b2.build) := by
  have hp := foldContainers_pairwise cs _ b2 h List.Pairwise.nil List.Pairwise.nil
  exact ⟨hp.1, hp.2, fun cs2 h2 => ⟨b2, h2 ▸ h, rfl⟩⟩

/-- Witness for C9: two containers added in non-lexicographic order still
produce maps sorted by key. -/
theorem builder_maps_sorted_witness :
    List.Pairwise (fun x y => strLt x.1 y.1 = true)
      (DynamicConfigurationBuilder.build
        { routers := [("ar", ⟨"R2", "aaa"⟩), ("zr", ⟨"R1", "bbb"⟩)],
          services :=
            [("aaa", singleServerService { exampleBaseUrl with port := some 2 }),
             ("bbb", singleServerService { exampleBaseUrl with port := some 1 })],
          base_url := exampleBaseUrl }).http.routers ∧
    List.Pairwise (fun x y => strLt x.1 y.1 = true)
      (DynamicConfigurationBuilder.build
        { routers := [("ar", ⟨"R2", "aaa"⟩), ("zr", ⟨"R1", "bbb"⟩)],
          services :=
            [("aaa", singleServerService { exampleBaseUrl with port := some 2 }),
             ("bbb", singleServerService { exampleBaseUrl with port := some 1 })],
          base_url := exampleBaseUrl }).http.services := by
  have h := builder_maps_sorted_and_deterministic exampleBaseUrl
    [⟨"bbb", [1], .SinglePort ⟨"zr", "R1"⟩⟩, ⟨"aaa", [2], .SinglePort ⟨"ar", "R2"⟩⟩]
    { routers := [("ar", ⟨"R2", "aaa"⟩), ("zr", ⟨"R1", "bbb"⟩)],
      services :=
        [("aaa", singleServerService { exampleBaseUrl with port := some 2 }),
         ("bbb", singleServerService { exampleBaseUrl with port := some 1 })],
      base_url := exampleBaseUrl } (by rfl)
  exact ⟨h.1, h.2.1⟩

/-- Witness for C3 at a concrete label map with one router key and a service
key. -/
theorem extract_single_router_witness :
    extract_traefik_config
      [("traefik.http.routers.web.rule", "HostA"),
       ("traefik.http.services.s.loadbalancer.server.port", "80")] =
      some (.SinglePort ⟨"web", "HostA"⟩) :=
  extract_single_router
    [("traefik.http.routers.web.rule", "HostA"),
     ("traefik.http.services.s.loadbalancer.server.port", "80")]
    "web" "HostA" (by rfl)

/-- Witness for C1 at a concrete label map with two router keys and two
service keys, listed out of name order. -/
theorem extract_multiport_sorted_zip_witness :
    (routerPairs
      [("traefik.http.routers.b.rule", "R2"), ("traefik.http.routers.a.rule", "R1"),
       ("traefik.http.services.b.loadbalancer.server.port", "81"),
       ("traefik.http.services.a.loadbalancer.server.port", "80")]).length = 2 ∧
    (1 : Nat) < 2 ∧
    (servicePairs
      [("traefik.http.routers.b.rule", "R2"), ("traefik.http.routers.a.rule", "R1"),
       ("traefik.http.services.b.loadbalancer.server.port", "81"),
       ("traefik.http.services.a.loadbalancer.server.port", "80")]).length = 2 ∧
    (∃ rs ss,
      rs.Perm (routerPairs
        [("traefik.http.routers.b.rule", "R2"), ("traefik.http.routers.a.rule", "R1"),
         ("traefik.http.services.b.loadbalancer.server.port", "81"),
         ("traefik.http.services.a.loadbalancer.server.port", "80")]) ∧
      List.Sorted (fun a b => strLe a.1 b.1 = true) rs ∧
      ss.Perm (servicePairs
        [("traefik.http.routers.b.rule", "R2"), ("traefik.http.routers.a.rule", "R1"),
         ("traefik.http.services.b.loadbalancer.server.port", "81"),
         ("traefik.http.services.a.loadbalancer.server.port", "80")]) ∧
      List.Sorted (fun a b => strLe a.1 b.1 = true) ss ∧
      extract_traefik_config
        [("traefik.http.routers.b.rule", "R2"), ("traefik.http.routers.a.rule", "R1"),
         ("traefik.http.services.b.loadbalancer.server.port", "81"),
         ("traefik.http.services.a.loadbalancer.server.port", "80")] =
        some (.MultiplePorts ((rs.zip ss).map mkMultiPortEntry)) ∧
      ((rs.zip ss).map mkMultiPortEntry).length = 2) :=
  ⟨by rfl, by decide, by rfl,
    extract_multiport_sorted_zip
      [("traefik.http.routers.b.rule", "R2"), ("traefik.http.routers.a.rule", "R1"),
       ("traefik.http.services.b.loadbalancer.server.port", "81"),
       ("traefik.http.services.a.loadbalancer.server.port", "80")]
      2 (by rfl) (by decide) (by rfl)⟩

/-! ### Universal characterization of the label-key matchers (for claim C7) -/

theorem findSome?_mem_of_eq_some {α β : Type} {f : α → Option β} {l : List α}
    {b : β} (h : l.findSome? f = some b) : ∃ a, a ∈ l ∧ f a = some b := by
  induction l with
  | nil => simp [List.findSome?] at h
  | cons x xs ih =>
    rw [List.findSome?_cons] at h
    cases hx : f x with
    | some c =>
      rw [hx] at h
      have h2 : some c = some b := h
      exact ⟨x, List.mem_cons_self x xs, hx.trans h2⟩
    | none =>
      rw [hx] at h
      have h2 : List.findSome? f xs = some b := h
      obtain ⟨a, ha, hfa⟩ := ih h2
      exact ⟨a, List.mem_cons.mpr (Or.inr ha), hfa⟩

theorem findSome?_isSome_of_mem {α β : Type} {f : α → Option β} {l : List α}
    {a : α} (ha : a ∈ l) (h : (f a).isSome = true) :
    (l.findSome? f).isSome = true := by
  induction l with
  | nil => cases ha
  | cons x xs ih =>
    rw [List.findSome?_cons]
    cases hx : f x with
    | some b => rfl
    | none =>
      rcases List.mem_cons.mp ha with rfl | hmem
      · rw [hx] at h
        exact absurd h (by simp)
      · exact ih hmem

theorem isPrefixOf_iff_exists {l1 l2 : List Char} :
    List.isPrefixOf l1 l2 = true ↔ ∃ t, l2 = l1 ++ t := by
  induction l1 generalizing l2 with
  | nil => simp [List.isPrefixOf]
  | cons c cs ih =>
    cases l2 with
    | nil => simp [List.isPrefixOf]
    | cons d ds =>
      rw [show List.isPrefixOf (c :: cs) (d :: ds) =
        ((c == d) && List.isPrefixOf cs ds) from rfl, Bool.and_eq_true]
      constructor
      · rintro ⟨hcd, hpre⟩
        have hcd2 : c = d := beq_iff_eq.mp hcd
        subst hcd2
        obtain ⟨t, ht⟩ := ih.mp hpre
        exact ⟨t, by rw [ht]; rfl⟩
      · rintro ⟨t, ht⟩
        injection ht with h1 h2
        subst h1
        exact ⟨beq_iff_eq.mpr rfl, ih.mpr ⟨t, h2⟩⟩

theorem isPrefixOf_append_self (l t : List Char) :
    List.isPrefixOf l (l ++ t) = true :=
  isPrefixOf_iff_exists.mpr ⟨t, rfl⟩

theorem routerCapture_isSome_of_contains (key : String) (pre nm post : List Char)
    (hk : key.toList =
      pre ++ ("traefik.http.routers.".toList ++ (nm ++ (".rule".toList ++ post))))
    (hne : nm ≠ []) (hdot : nm.all dotMatches = true) :
    (routerCapture key).isSome = true := by
  unfold routerCapture
  rw [Option.isSome_map']
  have hdropi : key.toList.drop pre.length =
      "traefik.http.routers.".toList ++ (nm ++ (".rule".toList ++ post)) := by
    rw [hk, List.drop_left]
  have hdropi21 : key.toList.drop (pre.length + 21) =
      nm ++ (".rule".toList ++ post) := by
    rw [← List.drop_drop, hdropi,
      show (21 : Nat) = ("traefik.http.routers.".toList).length from rfl,
      List.drop_left]
  have hGT : (routerGreedyTail (key.toList.drop (pre.length + 21))).isSome = true := by
    unfold routerGreedyTail
    have hjmem : nm.length ∈
        (List.range ((key.toList.drop (pre.length + 21)).length + 1)).reverse := by
      rw [List.mem_reverse, List.mem_range, hdropi21, List.length_append]
      omega
    refine findSome?_isSome_of_mem hjmem ?_
    show (if 1 ≤ nm.length &&
        ((key.toList.drop (pre.length + 21)).take nm.length).all dotMatches &&
        List.isPrefixOf ".rule".toList
          ((key.toList.drop (pre.length + 21)).drop nm.length)
      then some ((key.toList.drop (pre.length + 21)).take nm.length)
      else none).isSome = true
    have ht : (key.toList.drop (pre.length + 21)).take nm.length = nm := by
      rw [hdropi21, List.take_left]
    have hd : (key.toList.drop (pre.length + 21)).drop nm.length =
        ".rule".toList ++ post := by
      rw [hdropi21, List.drop_left]
    have h1 : 1 ≤ nm.length := List.length_pos.mpr hne
    rw [ht, hd, if_pos (by simp [h1, hdot, isPrefixOf_append_self])]
    rfl
  have hmem : pre.length ∈ List.range (key.toList.length + 1) := by
    rw [List.mem_range, hk]
    simp only [List.length_append]
    omega
  refine findSome?_isSome_of_mem hmem ?_
  show (if List.isPrefixOf "traefik.http.routers.".toList (key.toList.drop pre.length)
      then routerGreedyTail (key.toList.drop (pre.length + 21))
      else none).isSome = true
  rw [hdropi, if_pos (isPrefixOf_append_self _ _)]
  exact hGT

theorem routerCapture_some_contains (key name : String)
    (h : routerCapture key = some name) :
    ∃ pre post, key.toList =
      pre ++ ("traefik.http.routers.".toList ++
        (name.toList ++ (".rule".toList ++ post))) ∧
      name.toList ≠ [] ∧ name.toList.all dotMatches = true := by
  unfold routerCapture at h
  obtain ⟨cs, hfs, hmk⟩ := Option.map_eq_some'.mp h
  obtain ⟨i, _, hfi⟩ := findSome?_mem_of_eq_some hfs
  have hfi2 : (if List.isPrefixOf "traefik.http.routers.".toList (key.toList.drop i)
      then routerGreedyTail (key.toList.drop (i + 21)) else none) = some cs := hfi
  by_cases hp : List.isPrefixOf "traefik.http.routers.".toList (key.toList.drop i) = true
  case neg =>
    rw [if_neg hp] at hfi2
    exact Option.noConfusion hfi2
  case pos =>
    rw [if_pos hp] at hfi2
    unfold routerGreedyTail at hfi2
    obtain ⟨j, _, hfj⟩ := findSome?_mem_of_eq_some hfi2
    have hfj2 : (if 1 ≤ j && ((key.toList.drop (i + 21)).take j).all dotMatches &&
        List.isPrefixOf ".rule".toList ((key.toList.drop (i + 21)).drop j)
      then some ((key.toList.drop (i + 21)).take j) else none) = some cs := hfj
    by_cases hcond : (1 ≤ j && ((key.toList.drop (i + 21)).take j).all dotMatches &&
        List.isPrefixOf ".rule".toList ((key.toList.drop (i + 21)).drop j)) = true
    case neg =>
      rw [if_neg hcond] at hfj2
      exact Option.noConfusion hfj2
    case pos =>
      rw [if_pos hcond] at hfj2
      injection hfj2 with hcs
      simp only [Bool.and_eq_true, decide_eq_true_eq] at hcond
      obtain ⟨⟨h1j, hall⟩, hruleP⟩ := hcond
      obtain ⟨t, ht⟩ := isPrefixOf_iff_exists.mp hp
      have htt : t = key.toList.drop (i + 21) := by
        rw [← List.drop_drop 21 i, ht,
          show (21 : Nat) = ("traefik.http.routers.".toList).length from rfl,
          List.drop_left]
      obtain ⟨post, hpost⟩ := isPrefixOf_iff_exists.mp hruleP
      have hnt : name.toList = cs := by
        rw [← hmk]
        rfl
      have htail2 : key.toList.drop (i + 21) =
          cs ++ (".rule".toList ++ post) := by
        conv_lhs => rw [← List.take_append_drop j (key.toList.drop (i + 21))]
        rw [hcs, hpost]
      have hcs_ne : cs ≠ [] := by
        intro hnil
        rw [hnil] at hcs
        have hlen := congrArg List.length hcs
        rw [List.length_take] at hlen
        simp only [List.length_nil] at hlen
        rcases Nat.min_eq_zero_iff.mp hlen with h0 | h0
        · omega
        · have hteq : key.toList.drop (i + 21) = [] :=
            List.length_eq_zero.mp h0
          rw [hteq, List.drop_nil] at hpost
          have hlp := congrArg List.length hpost
          rw [List.length_append,
            show (".rule".toList).length = 5 from rfl] at hlp
          simp only [List.length_nil] at hlp
          omega
      refine ⟨key.toList.take i, post, ?_, ?_, ?_⟩
      · conv_lhs => rw [← List.take_append_drop i key.toList]
        rw [ht, htt, htail2, hnt]
      · rw [hnt]
        exact hcs_ne
      · rw [hnt, ← hcs]
        exact hall

theorem wildThenLit_cons_append (lit : List Char) (c : Char) (t : List Char)
    (hc : dotMatches c = true) :
    wildThenLit lit (c :: (lit ++ t)) = some t := by
  show (if (dotMatches c && List.isPrefixOf lit (lit ++ t)) = true
      then some (List.drop lit.length (lit ++ t)) else none) = some t
  rw [if_pos (by simp [hc, isPrefixOf_append_self]), List.drop_left]

theorem wildThenLit_eq_some {lit rest out : List Char}
    (h : wildThenLit lit rest = some out) :
    ∃ c, rest = c :: (lit ++ out) ∧ dotMatches c = true := by
  cases rest with
  | nil => exact Option.noConfusion h
  | cons c rs =>
    have h2 : (if dotMatches c && List.isPrefixOf lit rs
        then some (rs.drop lit.length) else none) = some out := h
    by_cases hc : (dotMatches c && List.isPrefixOf lit rs) = true
    case neg =>
      rw [if_neg hc] at h2
      exact Option.noConfusion h2
    case pos =>
      rw [if_pos hc] at h2
      injection h2 with h3
      rw [Bool.and_eq_true] at hc
      obtain ⟨hdot, hpre⟩ := hc
      obtain ⟨t, ht⟩ := isPrefixOf_iff_exists.mp hpre
      rw [ht, List.drop_left] at h3
      exact ⟨c, by rw [ht, h3], hdot⟩

theorem serviceTailMatches_shape (w1 w2 w3 : Char) (post : List Char)
    (h1 : dotMatches w1 = true) (h2 : dotMatches w2 = true)
    (h3 : dotMatches w3 = true) :
    serviceTailMatches (w1 :: ("loadbalancer".toList ++ (w2 ::
      ("server".toList ++ (w3 :: ("port".toList ++ post)))))) = true := by
  unfold serviceTailMatches
  rw [wildThenLit_cons_append _ _ _ h1, Option.some_bind,
    wildThenLit_cons_append _ _ _ h2, Option.some_bind,
    wildThenLit_cons_append _ _ _ h3]
  rfl

theorem serviceTailMatches_eq_true {rest : List Char}
    (h : serviceTailMatches rest = true) :
    ∃ w1 w2 w3 post, rest =
      w1 :: ("loadbalancer".toList ++ (w2 :: ("server".toList ++
        (w3 :: ("port".toList ++ post))))) ∧
      dotMatches w1 = true ∧ dotMatches w2 = true ∧ dotMatches w3 = true := by
  unfold serviceTailMatches at h
  cases e1 : wildThenLit "loadbalancer".toList rest with
  | none =>
    rw [e1] at h
    simp at h
  | some r1 =>
    rw [e1, Option.some_bind] at h
    cases e2 : wildThenLit "server".toList r1 with
    | none =>
      rw [e2] at h
      simp at h
    | some r2 =>
      rw [e2, Option.some_bind] at h
      cases e3 : wildThenLit "port".toList r2 with
      | none =>
        rw [e3] at h
        simp at h
      | some r3 =>
        obtain ⟨w1, h1e, h1d⟩ := wildThenLit_eq_some e1
        obtain ⟨w2, h2e, h2d⟩ := wildThenLit_eq_some e2
        obtain ⟨w3, h3e, h3d⟩ := wildThenLit_eq_some e3
        exact ⟨w1, w2, w3, r3, by rw [h1e, h2e, h3e], h1d, h2d, h3d⟩

theorem serviceGreedyTail_isSome (nm rest2 : List Char) (hne : nm ≠ [])
    (hdot : nm.all dotMatches = true) (hrest : serviceTailMatches rest2 = true) :
    (serviceGreedyTail (nm ++ rest2)).isSome = true := by
  unfold serviceGreedyTail
  have hjmem : nm.length ∈ (List.range ((nm ++ rest2).length + 1)).reverse := by
    rw [List.mem_reverse, List.mem_range, List.length_append]
    omega
  refine findSome?_isSome_of_mem hjmem ?_
  show (if 1 ≤ nm.length && ((nm ++ rest2).take nm.length).all dotMatches &&
      serviceTailMatches ((nm ++ rest2).drop nm.length)
    then some ((nm ++ rest2).take nm.length) else none).isSome = true
  have hone : 1 ≤ nm.length := List.length_pos.mpr hne
  rw [List.take_left, List.drop_left, if_pos (by simp [hone, hdot, hrest])]
  rfl

theorem serviceCapture_isSome_of_contains (key : String)
    (pre : List Char) (w0 : Char) (nm : List Char) (w1 w2 w3 : Char)
    (post : List Char)
    (hk : key.toList = pre ++ ("traefik.http.services".toList ++ (w0 ::
      (nm ++ (w1 :: ("loadbalancer".toList ++ (w2 :: ("server".toList ++
        (w3 :: ("port".toList ++ post))))))))))
    (hne : nm ≠ []) (hdot : nm.all dotMatches = true)
    (h0 : dotMatches w0 = true) (h1 : dotMatches w1 = true)
    (h2 : dotMatches w2 = true) (h3 : dotMatches w3 = true) :
    (serviceCapture key).isSome = true := by
  unfold serviceCapture
  rw [Option.isSome_map']
  have hdropi : key.toList.drop pre.length =
      "traefik.http.services".toList ++ (w0 :: (nm ++ (w1 ::
        ("loadbalancer".toList ++ (w2 :: ("server".toList ++
          (w3 :: ("port".toList ++ post)))))))) := by
    rw [hk, List.drop_left]
  have hdropi21 : key.toList.drop (pre.length + 21) =
      w0 :: (nm ++ (w1 :: ("loadbalancer".toList ++ (w2 :: ("server".toList ++
        (w3 :: ("port".toList ++ post))))))) := by
    rw [← List.drop_drop, hdropi,
      show (21 : Nat) = ("traefik.http.services".toList).length from rfl,
      List.drop_left]
  have hGT := serviceGreedyTail_isSome nm
    (w1 :: ("loadbalancer".toList ++ (w2 :: ("server".toList ++
      (w3 :: ("port".toList ++ post)))))) hne hdot
    (serviceTailMatches_shape w1 w2 w3 post h1 h2 h3)
  have hmem : pre.length ∈ List.range (key.toList.length + 1) := by
    rw [List.mem_range, hk]
    simp only [List.length_append, List.length_cons]
    omega
  refine findSome?_isSome_of_mem hmem ?_
  show (if List.isPrefixOf "traefik.http.services".toList (key.toList.drop pre.length)
      then (match key.toList.drop (pre.length + 21) with
        | [] => none
        | c :: rest => if dotMatches c then serviceGreedyTail rest else none)
      else none).isSome = true
  rw [hdropi21, hdropi, if_pos (isPrefixOf_append_self _ _)]
  show (if dotMatches w0
      then serviceGreedyTail (nm ++ (w1 :: ("loadbalancer".toList ++
        (w2 :: ("server".toList ++ (w3 :: ("port".toList ++ post)))))))
      else none).isSome = true
  rw [if_pos h0]
  exact hGT

theorem serviceCapture_some_contains (key name : String)
    (h : serviceCapture key = some name) :
    ∃ pre post, ∃ w0 w1 w2 w3 : Char, key.toList =
      pre ++ ("traefik.http.services".toList ++ (w0 :: (name.toList ++ (w1 ::
        ("loadbalancer".toList ++ (w2 :: ("server".toList ++ (w3 ::
          ("port".toList ++ post))))))))) ∧
      name.toList ≠ [] ∧ name.toList.all dotMatches = true ∧
      dotMatches w0 = true ∧ dotMatches w1 = true ∧ dotMatches w2 = true ∧
      dotMatches w3 = true := by
  unfold serviceCapture at h
  obtain ⟨cs, hfs, hmk⟩ := Option.map_eq_some'.mp h
  obtain ⟨i, _, hfi⟩ := findSome?_mem_of_eq_some hfs
  have hfi2 : (if List.isPrefixOf "traefik.http.services".toList (key.toList.drop i)
      then (match key.toList.drop (i + 21) with
        | [] => none
        | c :: rest => if dotMatches c then serviceGreedyTail rest else none)
      else none) = some cs := hfi
  by_cases hp : List.isPrefixOf "traefik.http.services".toList (key.toList.drop i) = true
  case neg =>
    rw [if_neg hp] at hfi2
    exact Option.noConfusion hfi2
  case pos =>
    rw [if_pos hp] at hfi2
    cases hd : key.toList.drop (i + 21) with
    | nil =>
      rw [hd] at hfi2
      exact Option.noConfusion hfi2
    | cons w0 rest =>
      rw [hd] at hfi2
      have hfi3 : (if dotMatches w0 then serviceGreedyTail rest else none) =
          some cs := hfi2
      by_cases h0 : dotMatches w0 = true
      case neg =>
        rw [if_neg h0] at hfi3
        exact Option.noConfusion hfi3
      case pos =>
        rw [if_pos h0] at hfi3
        unfold serviceGreedyTail at hfi3
        obtain ⟨j, _, hfj⟩ := findSome?_mem_of_eq_some hfi3
        have hfj2 : (if 1 ≤ j && (rest.take j).all dotMatches &&
            serviceTailMatches (rest.drop j)
          then some (rest.take j) else none) = some cs := hfj
        by_cases hcond : (1 ≤ j && (rest.take j).all dotMatches &&
            serviceTailMatches (rest.drop j)) = true
        case neg =>
          rw [if_neg hcond] at hfj2
          exact Option.noConfusion hfj2
        case pos =>
          rw [if_pos hcond] at hfj2
          injection hfj2 with hcs
          simp only [Bool.and_eq_true, decide_eq_true_eq] at hcond
          obtain ⟨⟨h1j, hall⟩, htm⟩ := hcond
          obtain ⟨w1, w2, w3, post, hshape, h1d, h2d, h3d⟩ :=
            serviceTailMatches_eq_true htm
          have hrest : rest = cs ++ (w1 :: ("loadbalancer".toList ++ (w2 ::
              ("server".toList ++ (w3 :: ("port".toList ++ post)))))) := by
            conv_lhs => rw [← List.take_append_drop j rest]
            rw [hcs, hshape]
          obtain ⟨t, ht⟩ := isPrefixOf_iff_exists.mp hp
          have htt : t = key.toList.drop (i + 21) := by
            rw [← List.drop_drop 21 i, ht,
              show (21 : Nat) = ("traefik.http.services".toList).length from rfl,
              List.drop_left]
          have hnt : name.toList = cs := by
            rw [← hmk]
            rfl
          have hcs_ne : cs ≠ [] := by
            intro hnil
            rw [hnil] at hcs
            have hlen := congrArg List.length hcs
            rw [List.length_take] at hlen
            simp only [List.length_nil] at hlen
            rcases Nat.min_eq_zero_iff.mp hlen with hz | hz
            · omega
            · have hre : rest = [] := List.length_eq_zero.mp hz
              rw [hre, List.drop_nil] at hshape
              exact List.noConfusion hshape
          refine ⟨key.toList.take i, post, w0, w1, w2, w3, ?_, ?_, ?_,
            h0, h1d, h2d, h3d⟩
          · conv_lhs => rw [← List.take_append_drop i key.toList]
            rw [ht, htt, hd, hrest, hnt]
          · rw [hnt]
            exact hcs_ne
          · rw [hnt, ← hcs]
            exact hall

/-- C7 amended: label-key recognition is an unanchored, case-sensitive
substring search with a greedy one-or-more capture of non-newline characters.
A key yields a router (name, rule) pair exactly when it contains, anywhere,
the literal "traefik.http.routers." followed by at least one non-newline
character of capture and the literal ".rule" (the router pattern's dots are
all literal, so extra leading or trailing characters are allowed but the dots
themselves must appear).  A key yields a service (name, port) capture exactly
when it contains, anywhere, the literal "traefik.http.services" followed by
one arbitrary non-newline character, a non-empty non-newline capture, and
then "loadbalancer", "server", "port" each preceded by one arbitrary
non-newline character — the service pattern's unescaped dots are
single-character wildcards, so keys with those dots replaced by other
characters still match.  No wildcard or capture position matches a newline. -/
theorem label_key_matching_unanchored (key : String) :
    ((∃ name, routerCapture key = some name) ↔
      (∃ pre nm post, key.toList =
        pre ++ ("traefik.http.routers.".toList ++ (nm ++ (".rule".toList ++ post))) ∧
        nm ≠ [] ∧ nm.all dotMatches = true)) ∧
    ((∃ name, serviceCapture key = some name) ↔
      (∃ pre post, ∃ w0 w1 w2 w3 : Char, ∃ nm, key.toList =
        pre ++ ("traefik.http.services".toList ++ (w0 :: (nm ++ (w1 ::
          ("loadbalancer".toList ++ (w2 :: ("server".toList ++ (w3 ::
            ("port".toList ++ post))))))))) ∧
        nm ≠ [] ∧ nm.all dotMatches = true ∧ dotMatches w0 = true ∧
        dotMatches w1 = true ∧ dotMatches w2 = true ∧ dotMatches w3 = true)) := by
  constructor
  · constructor
    · rintro ⟨name, h⟩
      obtain ⟨pre, post, hk, hne, hdot⟩ := routerCapture_some_contains key name h
      exact ⟨pre, name.toList, post, hk, hne, hdot⟩
    · rintro ⟨pre, nm, post, hk, hne, hdot⟩
      exact Option.isSome_iff_exists.mp
        (routerCapture_isSome_of_contains key pre nm post hk hne hdot)
  · constructor
    · rintro ⟨name, h⟩
      obtain ⟨pre, post, w0, w1, w2, w3, hk, hne, hdot, h0, h1, h2, h3⟩ :=
        serviceCapture_some_contains key name h
      exact ⟨pre, post, w0, w1, w2, w3, name.toList, hk, hne, hdot, h0, h1, h2, h3⟩
    · rintro ⟨pre, post, w0, w1, w2, w3, nm, hk, hne, hdot, h0, h1, h2, h3⟩
      exact Option.isSome_iff_exists.mp
        (serviceCapture_isSome_of_contains key pre w0 nm w1 w2 w3 post
          hk hne hdot h0 h1 h2 h3)

/-- Witness for the amended C7: both directions at concrete keys — a key with
a leading junk character still yields a router pair, and a key whose service
pattern dots are replaced by other characters still yields a service
capture. -/
theorem label_key_matching_unanchored_witness :
    (∃ name, routerCapture "Xtraefik.http.routers.web.rule" = some name) ∧
    (∃ name, serviceCapture "traefik.http.servicesXsvcYloadbalancerZserverWport" =
      some name) := by
  constructor
  · exact (label_key_matching_unanchored "Xtraefik.http.routers.web.rule").1.mpr
      ⟨"X".toList, "web".toList, [], by decide, by decide, by decide⟩
  · exact (label_key_matching_unanchored
      "traefik.http.servicesXsvcYloadbalancerZserverWport").2.mpr
      ⟨[], [], 'X', 'Y', 'Z', 'W', "svc".toList,
        by decide, by decide, by decide, by decide, by decide, by decide, by decide⟩
